import Mathlib

/-!
Verification of the paginated qualifying-fetch pipelines of the repo-miner
lab scripts.

The Python sources are shallowly embedded as pure Lean functions.  Network
interaction is modelled by passing the remote's responses in as data: a
request executor receives, for each attempt index, the outcome of that
attempt; a pagination loop receives the sequence of page responses it
would obtain from the remote, one entry per page request (a trace shorter
than the number of requests made is read as the remote failing from that
point on).  Blocking sleeps are recorded in an explicit trace of delays.
ISO-8601 timestamps are modelled by their value in seconds, and a JSON
`null` by `Option.none`.  Record fields that no claim observes (report
columns, chart data) are omitted from the embedded records; this is noted
at each structure.
-/

/-- Outcome of one HTTP POST attempt, as seen by the retry loops:
either `requests.post` raised a `requests.RequestException`
(connection-level failure), or a response arrived with the given HTTP
status code, a flag telling whether the JSON payload carries an
`errors` key, and the decoded payload itself. -/
inductive Attempt (α : Type) where
  | exn : Attempt α
  | resp (status : Nat) (hasErrors : Bool) (payload : α) : Attempt α

/-- What a retry-executor run produced: the caller-visible result
(`none` models Python `None`), the number of attempts actually made,
and the trace of `time.sleep` delays in the order they happened. -/
structure RunOutcome (α : Type) where
  result : Option α
  attempts : Nat
  sleeps : List Nat
deriving DecidableEq, Repr

namespace Lab01

-- Constants from src/lab-01/coleta_graphql.py
def REPOS_PER_PAGE : Nat := 100
def PAGES_TO_FETCH : Nat := 10
def MAX_RETRIES : Nat := 3
def RETRY_DELAY : Nat := 5

/-- Embedding of `run_query` (src/lab-01/coleta_graphql.py, lines 78-113)
from attempt index `attempt` on.  Per attempt: a 5xx status sleeps
`RETRY_DELAY * (attempt + 1)` and retries; any other 4xx/5xx status makes
`raise_for_status` raise an `HTTPError`, caught by the same
`RequestException` handler, which also sleeps and retries; a
connection-level exception likewise sleeps and retries; a 2xx response
whose payload has an `errors` key returns `None` at once; otherwise the
payload is returned.  After `MAX_RETRIES` failed attempts the function
returns `None`. -/
def run_query_from (attempts : Nat → Attempt α) (attempt : Nat)
    (sleeps : List Nat) : RunOutcome α :=
  if h : attempt < MAX_RETRIES then
    match attempts attempt with
    | .exn =>
        run_query_from attempts (attempt + 1)
          (sleeps ++ [RETRY_DELAY * (attempt + 1)])
    | .resp status hasErrors payload =>
        if 500 ≤ status ∧ status < 600 then
          run_query_from attempts (attempt + 1)
            (sleeps ++ [RETRY_DELAY * (attempt + 1)])
        else if 400 ≤ status ∧ status < 500 then
          run_query_from attempts (attempt + 1)
            (sleeps ++ [RETRY_DELAY * (attempt + 1)])
        else if hasErrors then
          ⟨none, attempt + 1, sleeps⟩
        else
          ⟨some payload, attempt + 1, sleeps⟩
  else
    ⟨none, attempt, sleeps⟩
termination_by MAX_RETRIES - attempt
decreasing_by all_goals (simp only [MAX_RETRIES] at *; omega)

/-- Entry point of the lab-01 retry executor. -/
def run_query (attempts : Nat → Attempt α) : RunOutcome α :=
  run_query_from attempts 0 []

end Lab01

namespace Lab03

-- Constants from src/lab-03/main.py
def MAX_CANDIDATE_REPOS : Nat := 500
def TARGET_PRS_PER_REPO : Nat := 100
def TARGET_REPOS_COUNT : Nat := 201
def MIN_PR_COUNT : Nat := 50
def MIN_REVIEW_COUNT : Nat := 1
def MIN_DURATION_HOURS : Nat := 1
def PRS_PER_PAGE : Nat := 50
def PAGES_TO_FETCH_REPOS : Nat := 10
def REPOS_PER_PAGE : Nat := 50
def MAX_RETRIES : Nat := 5
def RETRY_DELAY : Nat := 5

/-- Embedding of `run_graphql_query` (src/lab-03/main.py, lines 110-132)
from attempt index `attempt` on.  There is no separate 5xx branch here:
`raise_for_status` raises `HTTPError` (a `RequestException`) for every
4xx/5xx status, and the handler sleeps `RETRY_DELAY * (attempt + 1)` and
retries, exactly as for a connection-level exception.  A payload with an
`errors` key returns `None` immediately; after `MAX_RETRIES` failed
attempts the function returns `None`. -/
def run_graphql_query_from (attempts : Nat → Attempt α) (attempt : Nat)
    (sleeps : List Nat) : RunOutcome α :=
  if h : attempt < MAX_RETRIES then
    match attempts attempt with
    | .exn =>
        run_graphql_query_from attempts (attempt + 1)
          (sleeps ++ [RETRY_DELAY * (attempt + 1)])
    | .resp status hasErrors payload =>
        if 400 ≤ status ∧ status < 600 then
          run_graphql_query_from attempts (attempt + 1)
            (sleeps ++ [RETRY_DELAY * (attempt + 1)])
        else if hasErrors then
          ⟨none, attempt + 1, sleeps⟩
        else
          ⟨some payload, attempt + 1, sleeps⟩
  else
    ⟨none, attempt, sleeps⟩
termination_by MAX_RETRIES - attempt
decreasing_by all_goals (simp only [MAX_RETRIES] at *; omega)

/-- Entry point of the lab-03 retry executor. -/
def run_graphql_query (attempts : Nat → Attempt α) : RunOutcome α :=
  run_graphql_query_from attempts 0 []

end Lab03

/-- An attempt outcome is transient in the sense of the spec: a
connection-level exception or a 5xx server status. -/
def Attempt.Transient : Attempt α → Prop
  | .exn => True
  | .resp status _ _ => 500 ≤ status ∧ status < 600

/-- Embedding of the `pageInfo` object of a GraphQL search response. -/
structure PageInfo where
  endCursor : Option String
  hasNextPage : Bool
deriving DecidableEq, Repr

namespace Lab01

/-- One repository node of the lab-01 search page.  The source also
reads `createdAt`, `pushedAt` and `primaryLanguage`, which only feed the
CSV report; no claim observes them, so they are omitted here. -/
structure RepoBasic where
  nameWithOwner : String
  stargazerCount : Nat
deriving DecidableEq, Repr

/-- One page of the lab-01 repository search.  A `none` entry in `nodes`
is a JSON `null` node; `fetch_repo_list` appends nodes wholesale without
filtering nulls (they are skipped later, in `fetch_all_repo_details`). -/
structure RepoListPage where
  nodes : List (Option RepoBasic)
  pageInfo : PageInfo
deriving DecidableEq, Repr

/-- Loop body of `fetch_repo_list` (src/lab-01/coleta_graphql.py, lines
121-141), iterating `page_num` over `1..PAGES_TO_FETCH` with `pagesLeft`
iterations remaining.  Each iteration issues one page request (head of
`responses`); on a failed request (`run_query` returned `None`) the
whole function returns `None` — the accumulated list is discarded;
otherwise the page's nodes are appended and the loop continues until
`hasNextPage` is false or the page budget is exhausted.  The second
component of the result counts the page requests issued. -/
def fetch_repo_list_loop (all_repos : List (Option RepoBasic))
    (pagesLeft : Nat) (responses : List (Option RepoListPage))
    (requested : Nat) : Option (List (Option RepoBasic)) × Nat :=
  match pagesLeft with
  | 0 => (some all_repos, requested)
  | pl + 1 =>
    match responses with
    | none :: _ => (none, requested + 1)
    | [] => (none, requested + 1)
    | some page :: rest =>
      let acc := all_repos ++ page.nodes
      if page.pageInfo.hasNextPage then
        fetch_repo_list_loop acc pl rest (requested + 1)
      else
        (some acc, requested + 1)

/-- Entry point of lab-01's repository-list fetch (Etapa 1). -/
def fetch_repo_list (responses : List (Option RepoListPage)) :
    Option (List (Option RepoBasic)) × Nat :=
  fetch_repo_list_loop [] PAGES_TO_FETCH responses 0

end Lab01

namespace Lab03

/-- One repository node of the lab-03 search page: the repository name
together with the `totalCount` of its merged and of its closed pull
requests. -/
structure RepoNode where
  nameWithOwner : String
  mergedPRs : Nat
  closedPRs : Nat
deriving DecidableEq, Repr

/-- One page of the lab-03 repository search; a `none` node is a JSON
`null`, skipped by the loop (`if not repo: continue`). -/
structure RepoPage where
  nodes : List (Option RepoNode)
  pageInfo : PageInfo
deriving DecidableEq, Repr

/-- Result of the lab-03 outer loop: the qualified repository names in
discovery order, and the number of page requests issued. -/
structure FetchReposResult where
  qualified : List String
  pagesRequested : Nat
deriving DecidableEq, Repr

/-- Inner `for repo in repos` loop of `fetch_popular_repos_with_prs_filter`
(src/lab-03/main.py, lines 161-174): skip `null` nodes; a repository
qualifies when its merged plus closed PR count is at least
`MIN_PR_COUNT`; qualifying names are appended immediately, and the loop
breaks the instant the accumulated list reaches `MAX_CANDIDATE_REPOS`. -/
def processRepoNodes (qualified : List String) :
    List (Option RepoNode) → List String
  | [] => qualified
  | none :: rest => processRepoNodes qualified rest
  | some repo :: rest =>
    if repo.mergedPRs + repo.closedPRs ≥ MIN_PR_COUNT then
      let q := qualified ++ [repo.nameWithOwner]
      if q.length ≥ MAX_CANDIDATE_REPOS then q
      else processRepoNodes q rest
    else
      processRepoNodes qualified rest

/-- Page loop of `fetch_popular_repos_with_prs_filter`
(src/lab-03/main.py, lines 150-184), iterating `page_num` over
`1..PAGES_TO_FETCH_REPOS` with `pagesLeft` iterations remaining.  Each
iteration issues one page request (head of `responses`); on a failed
request (`None`, or a payload without a `data` key) the loop breaks and
the names accumulated so far are returned; otherwise the page's nodes
are processed, the loop breaks once `MAX_CANDIDATE_REPOS` names are
accumulated or the page says `hasNextPage` is false, and continues to
the next page otherwise. -/
def fetchReposLoop (qualified : List String) (pagesLeft : Nat)
    (responses : List (Option RepoPage)) (requested : Nat) :
    FetchReposResult :=
  match pagesLeft with
  | 0 => ⟨qualified, requested⟩
  | pl + 1 =>
    match responses with
    | none :: _ => ⟨qualified, requested + 1⟩
    | [] => ⟨qualified, requested + 1⟩
    | some page :: rest =>
      let q := processRepoNodes qualified page.nodes
      if q.length ≥ MAX_CANDIDATE_REPOS then ⟨q, requested + 1⟩
      else if page.pageInfo.hasNextPage then
        fetchReposLoop q pl rest (requested + 1)
      else
        ⟨q, requested + 1⟩

/-- Entry point of lab-03's Etapa 1 (repository discovery). -/
def fetch_popular_repos_with_prs_filter
    (responses : List (Option RepoPage)) : FetchReposResult :=
  fetchReposLoop [] PAGES_TO_FETCH_REPOS responses 0

/-- One pull-request node of the lab-03 PR search.  Timestamps are
modelled by their value in seconds (`parse_datetime` turns the ISO-8601
string into a timezone-aware datetime; `none` is a JSON `null` or empty
string, for which `parse_datetime` returns `None`).  The `totalCount`
sub-objects are flattened to their counts; `participants`, `comments`
and `reviewThreads` are `none` when the whole sub-object is `null`. -/
structure PRNode where
  number : Nat
  title : String
  state : String
  createdAt : Option Int
  mergedAt : Option Int
  closedAt : Option Int
  changedFiles : Option Int
  additions : Option Int
  deletions : Option Int
  participants : Option Nat
  comments : Option Nat
  reviewThreads : Option Nat
  reviews : Nat
deriving DecidableEq, Repr

/-- One page of the lab-03 PR search; a `none` node is a JSON `null`,
skipped by the loop (`if not pr: continue`). -/
structure PRPage where
  nodes : List (Option PRNode)
  pageInfo : PageInfo
deriving DecidableEq, Repr

/-- The dataset row appended for a qualifying PR (src/lab-03/main.py,
lines 256-274).  `created_at` and `closed_at` hold the already-parsed
creation and final-event times; the source stores
`duration_hours = round(duration.total_seconds() / 3600, 2)`, which is
kept here as the exact duration in seconds (`duration_seconds`), since
no claim observes the rounded value. -/
structure PREntry where
  repository : String
  pr_number : Nat
  title : String
  state : String
  review_count : Nat
  created_at : Int
  closed_at : Int
  duration_seconds : Int
  changed_files : Option Int
  additions : Option Int
  deletions : Option Int
  participants_count : Option Nat
  issue_comments_count : Option Nat
  review_threads_count : Option Nat
  comments_total : Option Nat
deriving DecidableEq, Repr

/-- Row constructor for a qualifying PR with parsed creation time `c`
and final-event time `f` (src/lab-03/main.py, lines 239-274), including
`comments_total = (issue_comments or 0) + (review_threads or 0)` when at
least one of the two counts is present. -/
def mkPREntry (repo_name : String) (pr : PRNode) (c f : Int) : PREntry :=
  { repository := repo_name
    pr_number := pr.number
    title := pr.title
    state := pr.state
    review_count := pr.reviews
    created_at := c
    closed_at := f
    duration_seconds := f - c
    changed_files := pr.changedFiles
    additions := pr.additions
    deletions := pr.deletions
    participants_count := pr.participants
    issue_comments_count := pr.comments
    review_threads_count := pr.reviewThreads
    comments_total :=
      if pr.comments.isSome ∨ pr.reviewThreads.isSome then
        some (pr.comments.getD 0 + pr.reviewThreads.getD 0)
      else none }

/-- Inner `for pr in prs` loop of `fetch_valid_prs_for_repo`
(src/lab-03/main.py, lines 219-277): skip `null` nodes; skip PRs with
fewer than `MIN_REVIEW_COUNT` reviews; the final event time is
`mergedAt` when present, else `closedAt`; skip PRs missing the creation
or final-event time; on a duration of at least `MIN_DURATION_HOURS`
hours the row is appended, and the loop breaks the instant the list
reaches `TARGET_PRS_PER_REPO` rows. -/
def processPRNodes (repo_name : String) (valid_prs : List PREntry) :
    List (Option PRNode) → List PREntry
  | [] => valid_prs
  | none :: rest => processPRNodes repo_name valid_prs rest
  | some pr :: rest =>
    if pr.reviews < MIN_REVIEW_COUNT then
      processPRNodes repo_name valid_prs rest
    else
      match pr.createdAt, pr.mergedAt.or pr.closedAt with
      | some c, some f =>
        if f - c ≥ 3600 * (MIN_DURATION_HOURS : Int) then
          let v := valid_prs ++ [mkPREntry repo_name pr c f]
          if v.length ≥ TARGET_PRS_PER_REPO then v
          else processPRNodes repo_name v rest
        else
          processPRNodes repo_name valid_prs rest
      | _, _ => processPRNodes repo_name valid_prs rest

/-- Page loop of `fetch_valid_prs_for_repo` (src/lab-03/main.py, lines
200-288), a `while True` paginating until a failed request (`None`
response, missing `data` key, or `null` repository — all folded into a
`none` page), the per-repository target, or `hasNextPage` false.  The
trace `responses` lists the successive page responses; an exhausted
trace is read as the remote failing from that point on. -/
def fetchPRsLoop (repo_name : String) (valid_prs : List PREntry) :
    List (Option PRPage) → List PREntry
  | [] => valid_prs
  | none :: _ => valid_prs
  | some page :: rest =>
    let v := processPRNodes repo_name valid_prs page.nodes
    if v.length ≥ TARGET_PRS_PER_REPO then v
    else if page.pageInfo.hasNextPage then
      fetchPRsLoop repo_name v rest
    else v

/-- Entry point of lab-03's per-repository PR collection. -/
def fetch_valid_prs_for_repo (repo_name : String)
    (responses : List (Option PRPage)) : List PREntry :=
  fetchPRsLoop repo_name [] responses

/-- State of the Etapa 2 orchestrator loop of `main`
(src/lab-03/main.py, lines 320-345): the accumulated dataset rows and
the count of repositories that reached the per-repository target. -/
structure OrchestratorState where
  all_prs_data : List PREntry
  repos_completed : Nat
deriving DecidableEq, Repr

/-- Embedding of the Etapa 2 `for` loop of `main` (src/lab-03/main.py,
lines 324-345).  The call `fetch_valid_prs_for_repo(repo_name)` is an
oracle `fetch`: `.error` models an exception escaping the call (caught
and logged by the orchestrator, which moves on), `.ok prs` its return
value.  The loop breaks once `repos_completed` reaches
`TARGET_REPOS_COUNT`; a repository whose PR list reaches
`TARGET_PRS_PER_REPO` contributes its first `TARGET_PRS_PER_REPO` rows
and bumps the completed count; any other repository contributes
nothing. -/
def mainLoop (fetch : String → Except String (List PREntry)) :
    List String → OrchestratorState → OrchestratorState
  | [], st => st
  | repo_name :: rest, st =>
    if st.repos_completed ≥ TARGET_REPOS_COUNT then st
    else
      match fetch repo_name with
      | .error _ => mainLoop fetch rest st
      | .ok prs_for_repo =>
        if prs_for_repo.isEmpty then mainLoop fetch rest st
        else if prs_for_repo.length ≥ TARGET_PRS_PER_REPO then
          mainLoop fetch rest
            ⟨st.all_prs_data ++ prs_for_repo.take TARGET_PRS_PER_REPO,
             st.repos_completed + 1⟩
        else
          mainLoop fetch rest st

/-- Entry point of the Etapa 2 orchestrator over the repository list
produced by Etapa 1. -/
def mainEtapa2 (fetch : String → Except String (List PREntry))
    (repo_list : List String) : OrchestratorState :=
  mainLoop fetch repo_list ⟨[], 0⟩

end Lab03

namespace RootMain

-- Constants from src/main.py
def REPOS_TO_FETCH : Nat := 200
def MIN_PR_COUNT : Nat := 100
def MIN_REVIEW_COUNT : Nat := 1
def MIN_DURATION_HOURS : Nat := 1
def PRS_PER_PAGE : Nat := 50
def PAGES_TO_FETCH_REPOS : Nat := 5
def REPOS_PER_PAGE : Nat := 100
def MAX_RETRIES : Nat := 5
def RETRY_DELAY : Nat := 5

/-- One pull-request node of the root-level `main.py` PR search, which
fetches only the fields its rows use (no file/participant metrics).
Timestamps are modelled as in `Lab03.PRNode`. -/
structure PRNode where
  number : Nat
  title : String
  state : String
  createdAt : Option Int
  mergedAt : Option Int
  closedAt : Option Int
  reviews : Nat
deriving DecidableEq, Repr

/-- One page of the root-level PR search. -/
structure PRPage where
  nodes : List (Option PRNode)
  pageInfo : PageInfo
deriving DecidableEq, Repr

/-- The dataset row appended for a qualifying PR (src/main.py, lines
203-212); as in lab-03 the rounded `duration_hours` is kept as the
exact duration in seconds. -/
structure PREntry where
  repository : String
  pr_number : Nat
  title : String
  state : String
  review_count : Nat
  created_at : Int
  closed_at : Int
  duration_seconds : Int
deriving DecidableEq, Repr

/-- Row constructor for a qualifying PR with parsed creation time `c`
and final-event time `f`. -/
def mkPREntry (repo_name : String) (pr : PRNode) (c f : Int) : PREntry :=
  { repository := repo_name
    pr_number := pr.number
    title := pr.title
    state := pr.state
    review_count := pr.reviews
    created_at := c
    closed_at := f
    duration_seconds := f - c }

/-- Inner `for pr in prs` loop of `fetch_valid_prs_for_repo`
(src/main.py, lines 183-212): same conjunctive filter as lab-03 —
minimum review count, then minimum duration between creation and the
first of (merge time, close time) — but with no per-repository target:
every qualifying PR of every served page is appended. -/
def processPRNodes (repo_name : String) (valid_prs : List PREntry) :
    List (Option PRNode) → List PREntry
  | [] => valid_prs
  | none :: rest => processPRNodes repo_name valid_prs rest
  | some pr :: rest =>
    if pr.reviews < MIN_REVIEW_COUNT then
      processPRNodes repo_name valid_prs rest
    else
      match pr.createdAt, pr.mergedAt.or pr.closedAt with
      | some c, some f =>
        if f - c ≥ 3600 * (MIN_DURATION_HOURS : Int) then
          processPRNodes repo_name (valid_prs ++ [mkPREntry repo_name pr c f]) rest
        else
          processPRNodes repo_name valid_prs rest
      | _, _ => processPRNodes repo_name valid_prs rest

/-- Page loop of `fetch_valid_prs_for_repo` (src/main.py, lines
173-219): `while True`, breaking on a failed request or on
`hasNextPage` false. -/
def fetchPRsLoop (repo_name : String) (valid_prs : List PREntry) :
    List (Option PRPage) → List PREntry
  | [] => valid_prs
  | none :: _ => valid_prs
  | some page :: rest =>
    let v := processPRNodes repo_name valid_prs page.nodes
    if page.pageInfo.hasNextPage then fetchPRsLoop repo_name v rest
    else v

/-- Entry point of the root-level per-repository PR collection. -/
def fetch_valid_prs_for_repo (repo_name : String)
    (responses : List (Option PRPage)) : List PREntry :=
  fetchPRsLoop repo_name [] responses

end RootMain

namespace Lab04

-- Constants from src/lab-04/main_pagination.py
def NUM_REPOS_VALIDOS : Nat := 520
def MIN_JAVA_FILES : Nat := 5
def MIN_BUGS : Int := -1
def MIN_LOC : Nat := 2000
def REPOS_PER_PAGE : Nat := 100
def MAX_PAGES : Nat := 20

/-- One item of the lab-04 REST repository search (the fields the
candidate filter reads; the remaining payload fields only feed the
report). -/
structure JavaRepo where
  name : String
  description : Option String
  full_name : String
  stargazers_count : Nat
deriving DecidableEq, Repr

/-- One successful page of the lab-04 REST search, together with the
rate-limit snapshot `get_rate_limit_info` returns after the page is
processed. -/
structure SearchPage where
  items : List JavaRepo
  rate_remaining : Nat
  rate_limit : Nat
deriving DecidableEq, Repr

/-- The deny-list of `get_top_java_repos_paginated`
(src/lab-04/main_pagination.py, lines 286-312). -/
def keywords_to_avoid : List String :=
  ["guide", "tutorial", "awesome", "interview", "leetcode", "algorithm",
   "book", "course", "learning", "study", "example", "sample"]

/-- The tutorial test of the candidate filter: some deny-list keyword is
a substring of the lowercased name, description (empty when `null`) or
full name. -/
def is_tutorial (repo : JavaRepo) : Bool :=
  keywords_to_avoid.any fun keyword =>
    repo.name.toLower.containsSubstr keyword.toSubstring ||
    (repo.description.getD "").toLower.containsSubstr keyword.toSubstring ||
    repo.full_name.toLower.containsSubstr keyword.toSubstring

/-- Inner `for repo in page_repos` loop (src/lab-04/main_pagination.py,
lines 361-391): stop once `max_repos` candidates are held; keep an item
only when it is not a tutorial. -/
def addCandidates (max_repos : Nat) (all_repos : List JavaRepo) :
    List JavaRepo → List JavaRepo
  | [] => all_repos
  | repo :: rest =>
    if all_repos.length ≥ max_repos then all_repos
    else if is_tutorial repo then addCandidates max_repos all_repos rest
    else addCandidates max_repos (all_repos ++ [repo]) rest

/-- Page loop of `get_top_java_repos_paginated`
(src/lab-04/main_pagination.py, lines 326-430):
`while len(all_repos) < max_repos and page <= MAX_PAGES`.  The trace
`responses` gives, per page number, the successful response for that
page — the scenario of the claims; the source's error branches break
the loop (HTTP 422, generic exception) or retry the same page number
(other HTTP errors) and are outside this success-trace model.  A page
with no items breaks; after filtering, a rate-limit snapshot with
`0 < remaining < 5` breaks; otherwise `page` advances.  The second
component counts the page requests issued. -/
def reposLoop (responses : Nat → SearchPage) (max_repos : Nat)
    (all_repos : List JavaRepo) (page : Nat) (requested : Nat) :
    List JavaRepo × Nat :=
  if h : all_repos.length < max_repos ∧ page ≤ MAX_PAGES then
    let data := responses page
    if data.items.isEmpty then (all_repos, requested + 1)
    else
      let acc := addCandidates max_repos all_repos data.items
      if 0 < data.rate_remaining ∧ data.rate_remaining < 5 then
        (acc, requested + 1)
      else
        reposLoop responses max_repos acc (page + 1) (requested + 1)
  else
    (all_repos, requested)
termination_by MAX_PAGES + 1 - page
decreasing_by omega

/-- Entry point of the lab-04 candidate search (`page` starts at 1). -/
def get_top_java_repos_paginated (responses : Nat → SearchPage)
    (max_repos : Nat) : List JavaRepo × Nat :=
  reposLoop responses max_repos [] 1 0

/-- Environment of one `analyze_repository` run: what the network, the
filesystem and the CK subprocess would answer.  `total_bugs` is the
`total_count` field of the remote issue-search payload as returned by
`get_bug_issues_count` (an `Int`: the trust boundary is the remote JSON;
`get_bug_issues_count` catches its own exceptions and returns 0, so it
never raises). -/
structure AnalyzeEnv where
  total_bugs : Int
  clone_succeeds : Bool
  total_java_files : Nat
  total_loc : Nat
  ck_succeeds : Bool
deriving DecidableEq, Repr

/-- Injected exception point inside the `try` block of
`analyze_repository`.  The stages before the clone cannot raise
(`get_bug_issues_count` catches internally), so every injectable point
lies after the clone: during the Java-file scan (`rglob`), during the
LOC count, or during `parse_ck_results` after a successful CK run. -/
inductive FailPoint where
  | noFail
  | atJavaScan
  | atLocCount
  | atCKParse
deriving DecidableEq, Repr

/-- Filesystem footprint of one `analyze_repository` call:
whether `os.makedirs(TEMP_DIR)` ran, whether a clone was attempted,
whether the clone directory `repo_dir` exists, and whether CK output
artifacts (the `ck_output_*` directory or its prefix CSV files) exist. -/
structure FsState where
  tempDirCreated : Bool
  cloneAttempted : Bool
  cloneDirExists : Bool
  outputArtifacts : Bool
deriving DecidableEq, Repr

/-- The fields of the `result` dict that drive control flow or cleanup
(src/lab-04/main_pagination.py, lines 1189-1231); the CK metric fields
(steps 5-7) that no claim observes are summarised by
`metrics_filled`. -/
structure AnalyzeResult where
  repository : String
  total_bugs : Int
  total_java_files : Nat
  total_loc : Nat
  metrics_filled : Bool
deriving DecidableEq, Repr

/-- The `finally` block of `analyze_repository`
(src/lab-04/main_pagination.py, lines 1392-1416): remove the clone
directory when `repo_dir` was assigned and still exists; then, when the
candidate was rejected (`repo_dir` never assigned, zero Java files, too
few bugs, or too little LOC), remove the CK output artifacts when they
were produced. -/
def finallyCleanup (repoAssigned outputAssigned : Bool)
    (result : AnalyzeResult) (fs : FsState) : FsState :=
  let fs1 :=
    if repoAssigned ∧ fs.cloneDirExists then
      { fs with cloneDirExists := false }
    else fs
  if ¬repoAssigned ∨ result.total_java_files = 0 ∨
      result.total_bugs ≤ MIN_BUGS ∨ result.total_loc < MIN_LOC then
    if outputAssigned ∧ fs1.outputArtifacts then
      { fs1 with outputArtifacts := false }
    else fs1
  else fs1

/-- Embedding of `GitHubAnalyzer.analyze_repository`
(src/lab-04/main_pagination.py, lines 1175-1424) as its exit paths, the
`finally` block applied on each.  Filter 1 (bug count) runs before any
filesystem side effect; only then is `TEMP_DIR` created and the clone
attempted (a failed clone leaves no target directory).  Filters 2 (Java
file count) and 3 (LOC) remove the clone directory explicitly on
rejection; an injected exception jumps straight to the `finally` block
(the outer `except Exception` swallows it, so no exception escapes the
call). -/
def analyze_repository (repo_name : String) (env : AnalyzeEnv)
    (fail : FailPoint) : AnalyzeResult × FsState :=
  let result0 : AnalyzeResult :=
    ⟨repo_name, env.total_bugs, 0, 0, false⟩
  let fs0 : FsState := ⟨false, false, false, false⟩
  -- FILTRO 1: bug count, before any clone
  if env.total_bugs ≤ MIN_BUGS then
    (result0, finallyCleanup false false result0 fs0)
  else
    -- repo_dir assigned, TEMP_DIR created, clone attempted
    let fs1 : FsState := ⟨true, true, env.clone_succeeds, false⟩
    if ¬env.clone_succeeds then
      (result0, finallyCleanup true false result0 fs1)
    else
      match fail with
      | .atJavaScan => (result0, finallyCleanup true false result0 fs1)
      | _ =>
        let result1 := { result0 with total_java_files := env.total_java_files }
        -- FILTRO 2: Java file count; explicit removal on rejection
        if env.total_java_files < MIN_JAVA_FILES then
          (result1, finallyCleanup true false result1
            { fs1 with cloneDirExists := false })
        else
          match fail with
          | .atLocCount => (result1, finallyCleanup true false result1 fs1)
          | _ =>
            let result2 := { result1 with total_loc := env.total_loc }
            -- FILTRO 3: LOC; explicit removal on rejection
            if env.total_loc < MIN_LOC then
              (result2, finallyCleanup true false result2
                { fs1 with cloneDirExists := false })
            else
              -- output_dir assigned; run_ck_analysis catches internally
              -- and may leave output artifacts even when it reports
              -- failure
              let fs2 := { fs1 with outputArtifacts := true }
              if env.ck_succeeds then
                match fail with
                | .atCKParse =>
                  (result2, finallyCleanup true true result2 fs2)
                | _ =>
                  let result3 := { result2 with metrics_filled := true }
                  (result3, finallyCleanup true true result3 fs2)
              else
                (result2, finallyCleanup true true result2 fs2)

end Lab04

namespace Lab03

/-- Total number of PR-search nodes across a list of repository pages
(the Candidates the spec counts as "available"). -/
def totalNodes (pages : List RepoPage) : Nat :=
  (pages.map fun p => p.nodes.length).sum

/-- Spec-side statement (section 4.2) that the qualification predicate
accepts every Candidate of a page: every node is non-null and has at
least `MIN_PR_COUNT` merged-plus-closed PRs. -/
def PageAllQualify (p : RepoPage) : Prop :=
  ∀ o ∈ p.nodes, ∃ r, o = some r ∧ MIN_PR_COUNT ≤ r.mergedPRs + r.closedPRs

/-- Spec-side conjunctive qualification predicate of section 4.3,
written from the spec's words: minimum review count AND minimum elapsed
duration between creation and the first of (merge time, close time);
missing timestamps fail the predicate. -/
def spec_pr_qualifies (pr : PRNode) : Bool :=
  decide (MIN_REVIEW_COUNT ≤ pr.reviews) &&
  match pr.createdAt, pr.mergedAt.or pr.closedAt with
  | some c, some f => decide (3600 * (MIN_DURATION_HOURS : Int) ≤ f - c)
  | _, _ => false

/-- Spec-side description of the inner loop's per-Candidate processing:
the rows built from exactly the non-null nodes that satisfy the
conjunctive predicate, in page order. -/
def spec_qualified_rows (repo_name : String)
    (prs : List (Option PRNode)) : List PREntry :=
  prs.filterMap fun o =>
    match o with
    | none => none
    | some pr =>
      match pr.createdAt, pr.mergedAt.or pr.closedAt with
      | some c, some f =>
        if spec_pr_qualifies pr then some (mkPREntry repo_name pr c f)
        else none
      | _, _ => none

/-- The PR pages the `while True` loop walks before stopping for a
pagination reason: pages are consumed until a failed request or a page
with `hasNextPage = false`. -/
def consumedPages : List (Option PRPage) → List PRPage
  | [] => []
  | none :: _ => []
  | some p :: rest =>
    p :: (if p.pageInfo.hasNextPage then consumedPages rest else [])

/-- All PR nodes of a list of pages, in page order. -/
def joinNodes (pages : List PRPage) : List (Option PRNode) :=
  (pages.map fun p => p.nodes).flatten

end Lab03

namespace RootMain

/-- Spec-side conjunctive qualification predicate of section 4.3 for the
root-level script, written from the spec's words. -/
def spec_pr_qualifies (pr : PRNode) : Bool :=
  decide (MIN_REVIEW_COUNT ≤ pr.reviews) &&
  match pr.createdAt, pr.mergedAt.or pr.closedAt with
  | some c, some f => decide (3600 * (MIN_DURATION_HOURS : Int) ≤ f - c)
  | _, _ => false

/-- Spec-side description of the inner loop's per-Candidate processing
for the root-level script. -/
def spec_qualified_rows (repo_name : String)
    (prs : List (Option PRNode)) : List PREntry :=
  prs.filterMap fun o =>
    match o with
    | none => none
    | some pr =>
      match pr.createdAt, pr.mergedAt.or pr.closedAt with
      | some c, some f =>
        if spec_pr_qualifies pr then some (mkPREntry repo_name pr c f)
        else none
      | _, _ => none

/-- The PR pages the root-level `while True` loop walks before stopping
for a pagination reason. -/
def consumedPages : List (Option PRPage) → List PRPage
  | [] => []
  | none :: _ => []
  | some p :: rest =>
    p :: (if p.pageInfo.hasNextPage then consumedPages rest else [])

/-- All PR nodes of a list of pages, in page order. -/
def joinNodes (pages : List PRPage) : List (Option PRNode) :=
  (pages.map fun p => p.nodes).flatten

end RootMain


/-! ## Retry executor: bounded attempts, linear backoff (C4) -/

theorem lab01_run_query_step (attempts : Nat → Attempt α) (i : Nat)
    (s : List Nat) (hi : i < Lab01.MAX_RETRIES)
    (ht : (attempts i).Transient) :
    Lab01.run_query_from attempts i s
      = Lab01.run_query_from attempts (i + 1)
          (s ++ [Lab01.RETRY_DELAY * (i + 1)]) := by
  rw [Lab01.run_query_from, dif_pos hi]
  cases hA : attempts i with
  | exn => rfl
  | resp status hasErrors payload =>
    rw [hA] at ht
    have ht' : 500 ≤ status ∧ status < 600 := ht
    simp [ht'.1, ht'.2]

theorem lab01_run_query_exhausted (attempts : Nat → Attempt α)
    (s : List Nat) :
    Lab01.run_query_from attempts Lab01.MAX_RETRIES s
      = ⟨none, Lab01.MAX_RETRIES, s⟩ := by
  rw [Lab01.run_query_from, dif_neg (lt_irrefl _)]

theorem lab01_run_query_all_transient (attempts : Nat → Attempt α) :
    ∀ (n i : Nat), i + n = Lab01.MAX_RETRIES →
    (∀ j, j < Lab01.MAX_RETRIES → (attempts j).Transient) → ∀ s,
    Lab01.run_query_from attempts i s
      = ⟨none, Lab01.MAX_RETRIES,
         s ++ (List.range n).map fun k => Lab01.RETRY_DELAY * (i + k + 1)⟩ := by
  intro n
  induction n with
  | zero =>
    intro i hi h s
    have hieq : i = Lab01.MAX_RETRIES := by omega
    subst hieq
    simp [lab01_run_query_exhausted]
  | succ m ih =>
    intro i hi h s
    have hilt : i < Lab01.MAX_RETRIES := by omega
    rw [lab01_run_query_step attempts i s hilt (h i hilt)]
    rw [ih (i + 1) (by omega) h]
    congr 1
    rw [List.range_succ_eq_map, List.map_cons, List.map_map,
        List.append_assoc, List.singleton_append]
    congr 2
    apply List.map_congr_left
    intro k _
    simp only [Function.comp_apply]
    congr 1
    omega

theorem lab03_run_query_step (attempts : Nat → Attempt α) (i : Nat)
    (s : List Nat) (hi : i < Lab03.MAX_RETRIES)
    (ht : (attempts i).Transient) :
    Lab03.run_graphql_query_from attempts i s
      = Lab03.run_graphql_query_from attempts (i + 1)
          (s ++ [Lab03.RETRY_DELAY * (i + 1)]) := by
  rw [Lab03.run_graphql_query_from, dif_pos hi]
  cases hA : attempts i with
  | exn => rfl
  | resp status hasErrors payload =>
    rw [hA] at ht
    have ht' : 500 ≤ status ∧ status < 600 := ht
    have h4 : 400 ≤ status := by omega
    simp [h4, ht'.2]

theorem lab03_run_query_exhausted (attempts : Nat → Attempt α)
    (s : List Nat) :
    Lab03.run_graphql_query_from attempts Lab03.MAX_RETRIES s
      = ⟨none, Lab03.MAX_RETRIES, s⟩ := by
  rw [Lab03.run_graphql_query_from, dif_neg (lt_irrefl _)]

theorem lab03_run_query_all_transient (attempts : Nat → Attempt α) :
    ∀ (n i : Nat), i + n = Lab03.MAX_RETRIES →
    (∀ j, j < Lab03.MAX_RETRIES → (attempts j).Transient) → ∀ s,
    Lab03.run_graphql_query_from attempts i s
      = ⟨none, Lab03.MAX_RETRIES,
         s ++ (List.range n).map fun k => Lab03.RETRY_DELAY * (i + k + 1)⟩ := by
  intro n
  induction n with
  | zero =>
    intro i hi h s
    have hieq : i = Lab03.MAX_RETRIES := by omega
    subst hieq
    simp [lab03_run_query_exhausted]
  | succ m ih =>
    intro i hi h s
    have hilt : i < Lab03.MAX_RETRIES := by omega
    rw [lab03_run_query_step attempts i s hilt (h i hilt)]
    rw [ih (i + 1) (by omega) h]
    congr 1
    rw [List.range_succ_eq_map, List.map_cons, List.map_map,
        List.append_assoc, List.singleton_append]
    congr 2
    apply List.map_congr_left
    intro k _
    simp only [Function.comp_apply]
    congr 1
    omega

/-- C4: a request whose every attempt fails transiently (5xx status or
connection-level exception) is attempted exactly `MAX_RETRIES` times —
3 in lab-01's `run_query`, 5 in lab-03's `run_graphql_query` — never
more, the delay slept after failed attempt number `n` is
`RETRY_DELAY * n` (so the delays between consecutive attempts grow
linearly: 5 s, 10 s, ... ), and the caller receives `None`; no exception
escapes, since the embedding always returns a `RunOutcome`. -/
theorem retry_always_transient_bounded
    (a1 : Nat → Attempt α) (a3 : Nat → Attempt β)
    (h1 : ∀ j, j < Lab01.MAX_RETRIES → (a1 j).Transient)
    (h3 : ∀ j, j < Lab03.MAX_RETRIES → (a3 j).Transient) :
    Lab01.run_query a1 = ⟨none, 3, [5, 10, 15]⟩ ∧
    Lab03.run_graphql_query a3 = ⟨none, 5, [5, 10, 15, 20, 25]⟩ := by
  constructor
  · exact lab01_run_query_all_transient a1 Lab01.MAX_RETRIES 0
      (Nat.zero_add _) h1 []
  · exact lab03_run_query_all_transient a3 Lab03.MAX_RETRIES 0
      (Nat.zero_add _) h3 []

/-- Witness for C4 at the concrete all-transient attempt streams
`fun _ => .exn` (every attempt raises a connection-level exception). -/
theorem retry_always_transient_bounded_witness :
    Lab01.run_query (fun _ => (Attempt.exn : Attempt Nat))
        = ⟨none, 3, [5, 10, 15]⟩ ∧
    Lab03.run_graphql_query (fun _ => (Attempt.exn : Attempt Nat))
        = ⟨none, 5, [5, 10, 15, 20, 25]⟩ :=
  retry_always_transient_bounded (fun _ => Attempt.exn) (fun _ => Attempt.exn)
    (fun _ _ => trivial) (fun _ _ => trivial)

/-! ## Qualification loops never overshoot their target (C1) -/

theorem lab03_processRepoNodes_length_le (nodes : List (Option Lab03.RepoNode)) :
    ∀ acc : List String, acc.length < Lab03.MAX_CANDIDATE_REPOS →
    (Lab03.processRepoNodes acc nodes).length ≤ Lab03.MAX_CANDIDATE_REPOS := by
  induction nodes with
  | nil =>
    intro acc h
    simpa [Lab03.processRepoNodes] using h.le
  | cons o rest ih =>
    intro acc h
    cases o with
    | none => simpa [Lab03.processRepoNodes] using ih acc h
    | some repo =>
      simp only [Lab03.processRepoNodes]
      split_ifs with hq hfull
      · simp only [List.length_append, List.length_singleton]
        omega
      · exact ih _ (by omega)
      · exact ih acc h

theorem lab03_fetchReposLoop_length_le (pagesLeft : Nat) :
    ∀ (responses : List (Option Lab03.RepoPage)) (acc : List String)
      (req : Nat), acc.length < Lab03.MAX_CANDIDATE_REPOS →
    (Lab03.fetchReposLoop acc pagesLeft responses req).qualified.length
      ≤ Lab03.MAX_CANDIDATE_REPOS := by
  induction pagesLeft with
  | zero => intro responses acc req h; exact h.le
  | succ pl ih =>
    intro responses acc req h
    match responses with
    | [] => exact h.le
    | none :: rest => exact h.le
    | some page :: rest =>
      simp only [Lab03.fetchReposLoop]
      have hlen := lab03_processRepoNodes_length_le page.nodes acc h
      split_ifs with hfull hnext
      · exact hlen
      · exact ih rest _ _ (by omega)
      · exact hlen

theorem lab03_processPRNodes_length_le (repo_name : String)
    (nodes : List (Option Lab03.PRNode)) :
    ∀ acc : List Lab03.PREntry, acc.length < Lab03.TARGET_PRS_PER_REPO →
    (Lab03.processPRNodes repo_name acc nodes).length
      ≤ Lab03.TARGET_PRS_PER_REPO := by
  induction nodes with
  | nil =>
    intro acc h
    simpa [Lab03.processPRNodes] using h.le
  | cons o rest ih =>
    intro acc h
    cases o with
    | none => simpa [Lab03.processPRNodes] using ih acc h
    | some pr =>
      simp only [Lab03.processPRNodes]
      split_ifs with hrev
      · exact ih acc h
      · rcases hc : pr.createdAt with _ | c
        · simpa [hc] using ih acc h
        · rcases hf : pr.mergedAt.or pr.closedAt with _ | f
          · simpa [hc, hf] using ih acc h
          · simp only [hc, hf]
            split_ifs with hdur hfull
            · simp only [List.length_append, List.length_singleton]
              omega
            · exact ih _ (by omega)
            · exact ih acc h

theorem lab03_fetchPRsLoop_length_le (repo_name : String)
    (responses : List (Option Lab03.PRPage)) :
    ∀ acc : List Lab03.PREntry, acc.length < Lab03.TARGET_PRS_PER_REPO →
    (Lab03.fetchPRsLoop repo_name acc responses).length
      ≤ Lab03.TARGET_PRS_PER_REPO := by
  induction responses with
  | nil => intro acc h; exact h.le
  | cons o rest ih =>
    intro acc h
    cases o with
    | none => exact h.le
    | some page =>
      simp only [Lab03.fetchPRsLoop]
      have hlen := lab03_processPRNodes_length_le repo_name page.nodes acc h
      split_ifs with hfull hnext
      · exact hlen
      · exact ih _ (by omega)
      · exact hlen

/-- C1: neither qualification loop of lab-03 ever overshoots its
configured target, at any intermediate state or at return.  Every state
from which a loop continues has strictly fewer accumulated items than
the target (the loop breaks the moment the target is reached), and from
any such state — the initial empty state included — the returned
collection length stays at most the target: `MAX_CANDIDATE_REPOS` for
the repository loop, `TARGET_PRS_PER_REPO` for the per-repository PR
loop. -/
theorem loops_never_overshoot_target :
    (∀ (qualified : List String) (pagesLeft : Nat)
        (responses : List (Option Lab03.RepoPage)) (requested : Nat),
      qualified.length < Lab03.MAX_CANDIDATE_REPOS →
      (Lab03.fetchReposLoop qualified pagesLeft responses
          requested).qualified.length ≤ Lab03.MAX_CANDIDATE_REPOS) ∧
    (∀ responses,
      (Lab03.fetch_popular_repos_with_prs_filter
          responses).qualified.length ≤ Lab03.MAX_CANDIDATE_REPOS) ∧
    (∀ (repo_name : String) (valid_prs : List Lab03.PREntry)
        (responses : List (Option Lab03.PRPage)),
      valid_prs.length < Lab03.TARGET_PRS_PER_REPO →
      (Lab03.fetchPRsLoop repo_name valid_prs responses).length
        ≤ Lab03.TARGET_PRS_PER_REPO) ∧
    (∀ repo_name responses,
      (Lab03.fetch_valid_prs_for_repo repo_name responses).length
        ≤ Lab03.TARGET_PRS_PER_REPO) := by
  refine ⟨?_, ?_, ?_, ?_⟩
  · intro q pl resp req h
    exact lab03_fetchReposLoop_length_le pl resp q req h
  · intro responses
    exact lab03_fetchReposLoop_length_le _ responses [] 0 (by decide)
  · intro repo_name acc responses h
    exact lab03_fetchPRsLoop_length_le repo_name responses acc h
  · intro repo_name responses
    exact lab03_fetchPRsLoop_length_le repo_name responses [] (by decide)

/-- Witness for C1 at concrete intermediate states and response
traces. -/
theorem loops_never_overshoot_target_witness :
    (Lab03.fetchReposLoop ["octocat/hello"] 10
        [some ⟨[some ⟨"a/b", 60, 10⟩], ⟨none, false⟩⟩]
        0).qualified.length ≤ Lab03.MAX_CANDIDATE_REPOS ∧
    (Lab03.fetchPRsLoop "a/b" [] [none]).length
      ≤ Lab03.TARGET_PRS_PER_REPO :=
  ⟨loops_never_overshoot_target.1 _ _ _ _ (by decide),
   loops_never_overshoot_target.2.2.1 _ _ _ (by decide)⟩

/-! ## Loop stops the instant the target is reached (C2) -/

theorem lab03_totalNodes_nil : Lab03.totalNodes [] = 0 := rfl

theorem lab03_totalNodes_cons (p : Lab03.RepoPage)
    (l : List Lab03.RepoPage) :
    Lab03.totalNodes (p :: l) = p.nodes.length + Lab03.totalNodes l := by
  simp [Lab03.totalNodes]

theorem lab03_processRepoNodes_all_lt
    (nodes : List (Option Lab03.RepoNode))
    (hq : ∀ o ∈ nodes, ∃ r, o = some r ∧
      Lab03.MIN_PR_COUNT ≤ r.mergedPRs + r.closedPRs) :
    ∀ acc : List String,
    acc.length + nodes.length < Lab03.MAX_CANDIDATE_REPOS →
    (Lab03.processRepoNodes acc nodes).length = acc.length + nodes.length := by
  induction nodes with
  | nil =>
    intro acc _
    simp [Lab03.processRepoNodes]
  | cons o rest ih =>
    intro acc h
    obtain ⟨r, rfl, hr⟩ := hq o (List.mem_cons_self o rest)
    simp only [List.length_cons] at h
    simp only [Lab03.processRepoNodes, if_pos hr]
    rw [if_neg (by simp only [List.length_append, List.length_singleton]; omega)]
    rw [ih (fun o ho => hq o (List.mem_cons_of_mem _ ho)) _
      (by simp only [List.length_append, List.length_singleton]; omega)]
    simp only [List.length_append, List.length_singleton, List.length_cons,
      List.length_nil]
    omega

theorem lab03_processRepoNodes_all_reach
    (nodes : List (Option Lab03.RepoNode))
    (hq : ∀ o ∈ nodes, ∃ r, o = some r ∧
      Lab03.MIN_PR_COUNT ≤ r.mergedPRs + r.closedPRs) :
    ∀ acc : List String, acc.length < Lab03.MAX_CANDIDATE_REPOS →
    Lab03.MAX_CANDIDATE_REPOS ≤ acc.length + nodes.length →
    (Lab03.processRepoNodes acc nodes).length = Lab03.MAX_CANDIDATE_REPOS := by
  induction nodes with
  | nil =>
    intro acc hlt hge
    simp at hge
    omega
  | cons o rest ih =>
    intro acc hlt hge
    obtain ⟨r, rfl, hr⟩ := hq o (List.mem_cons_self o rest)
    simp only [List.length_cons] at hge
    simp only [Lab03.processRepoNodes, if_pos hr]
    by_cases hfull :
        (acc ++ [r.nameWithOwner]).length ≥ Lab03.MAX_CANDIDATE_REPOS
    · rw [if_pos hfull]
      simp only [List.length_append, List.length_singleton] at hfull ⊢
      omega
    · rw [if_neg hfull]
      simp only [List.length_append, List.length_singleton] at hfull
      exact ih (fun o ho => hq o (List.mem_cons_of_mem _ ho)) _
        (by simp only [List.length_append, List.length_singleton]; omega)
        (by simp only [List.length_append, List.length_singleton]; omega)

theorem lab03_fetchReposLoop_all_qualify :
    ∀ (served : List Lab03.RepoPage) (rest : List (Option Lab03.RepoPage))
      (acc : List String) (pagesLeft req : Nat),
    served.length ≤ pagesLeft →
    (∀ p ∈ served, Lab03.PageAllQualify p) →
    (∀ p ∈ served.dropLast, p.pageInfo.hasNextPage = true) →
    acc.length + Lab03.totalNodes served.dropLast
      < Lab03.MAX_CANDIDATE_REPOS →
    Lab03.MAX_CANDIDATE_REPOS ≤ acc.length + Lab03.totalNodes served →
    (Lab03.fetchReposLoop acc pagesLeft (served.map some ++ rest)
        req).qualified.length = Lab03.MAX_CANDIDATE_REPOS ∧
    (Lab03.fetchReposLoop acc pagesLeft (served.map some ++ rest)
        req).pagesRequested = req + served.length := by
  intro served
  induction served with
  | nil =>
    intro rest acc pagesLeft req _ _ _ hlt hge
    rw [lab03_totalNodes_nil] at hge
    omega
  | cons p served' ih =>
    intro rest acc pagesLeft req hpl hall hnext hlt hge
    match pagesLeft with
    | 0 => simp at hpl
    | pl + 1 =>
      simp only [List.map_cons, List.cons_append, Lab03.fetchReposLoop]
      rcases served' with _ | ⟨p', served''⟩
      · -- p is the last served page: the target is reached on it
        rw [List.dropLast_single, lab03_totalNodes_nil] at hlt
        rw [lab03_totalNodes_cons, lab03_totalNodes_nil] at hge
        have hq := lab03_processRepoNodes_all_reach p.nodes
          (hall p (List.mem_cons_self p [])) acc (by omega) (by omega)
        rw [if_pos (le_of_eq hq.symm)]
        exact ⟨hq, by simp⟩
      · -- later pages remain: p is fully consumed below the target
        have hdl : (p :: p' :: served'').dropLast
            = p :: (p' :: served'').dropLast :=
          List.dropLast_cons_of_ne_nil (by simp)
        rw [hdl, lab03_totalNodes_cons] at hlt
        rw [lab03_totalNodes_cons] at hge
        have hq := lab03_processRepoNodes_all_lt p.nodes
          (hall p (List.mem_cons_self p _)) acc (by omega)
        rw [if_neg (by omega)]
        have hpnext : p.pageInfo.hasNextPage = true :=
          hnext p (by rw [hdl]; exact List.mem_cons_self p _)
        rw [if_pos hpnext]
        have := ih rest (Lab03.processRepoNodes acc p.nodes) pl (req + 1)
          (by simpa using hpl)
          (fun q hqmem => hall q (List.mem_cons_of_mem _ hqmem))
          (fun q hqmem => hnext q (by rw [hdl]; exact List.mem_cons_of_mem _ hqmem))
          (by omega) (by omega)
        refine ⟨this.1, ?_⟩
        rw [this.2]
        simp
        omega

/-- C2: when the qualification predicate accepts every Candidate of the
served pages (all nodes non-null with merged-plus-closed PR count at
least the threshold), the pages before the last all announce a next
page, the target is not yet reached before the last served page and is
reached on it, the outer loop returns exactly `MAX_CANDIDATE_REPOS`
qualified names and issues exactly `served.length` page requests: it
stops the instant the target is reached and never requests a page
beyond the one on which the target was reached, whatever further
responses (`rest`) the remote would have provided. -/
theorem outer_loop_stops_at_target (served : List Lab03.RepoPage)
    (rest : List (Option Lab03.RepoPage))
    (h1 : served.length ≤ Lab03.PAGES_TO_FETCH_REPOS)
    (h2 : ∀ p ∈ served, Lab03.PageAllQualify p)
    (h3 : ∀ p ∈ served.dropLast, p.pageInfo.hasNextPage = true)
    (h4 : Lab03.totalNodes served.dropLast < Lab03.MAX_CANDIDATE_REPOS)
    (h5 : Lab03.MAX_CANDIDATE_REPOS ≤ Lab03.totalNodes served) :
    (Lab03.fetch_popular_repos_with_prs_filter
        (served.map some ++ rest)).qualified.length
      = Lab03.MAX_CANDIDATE_REPOS ∧
    (Lab03.fetch_popular_repos_with_prs_filter
        (served.map some ++ rest)).pagesRequested = served.length := by
  have h := lab03_fetchReposLoop_all_qualify served rest []
    Lab03.PAGES_TO_FETCH_REPOS 0 h1 h2 h3
    (by simpa using h4) (by simpa using h5)
  exact ⟨h.1, by simpa using h.2⟩

/-- Witness for C2: one served page carrying 500 qualifying candidates;
the loop returns exactly 500 names after exactly 1 page request. -/
theorem outer_loop_stops_at_target_witness :
    (Lab03.fetch_popular_repos_with_prs_filter
        [some ⟨List.replicate 500 (some ⟨"owner/repo", 60, 0⟩),
              ⟨some "c1", true⟩⟩]).qualified.length
      = Lab03.MAX_CANDIDATE_REPOS ∧
    (Lab03.fetch_popular_repos_with_prs_filter
        [some ⟨List.replicate 500 (some ⟨"owner/repo", 60, 0⟩),
              ⟨some "c1", true⟩⟩]).pagesRequested = 1 := by
  have h := outer_loop_stops_at_target
    [⟨List.replicate 500 (some ⟨"owner/repo", 60, 0⟩), ⟨some "c1", true⟩⟩]
    [] (by decide)
    (by
      intro p hp
      rw [List.mem_singleton] at hp
      subst hp
      intro o ho
      have he := List.eq_of_mem_replicate ho
      subst he
      exact ⟨_, rfl, by decide⟩)
    (by
      intro p hp
      rw [List.dropLast_single] at hp
      exact absurd hp (List.not_mem_nil p))
    (by
      rw [List.dropLast_single, lab03_totalNodes_nil]
      decide)
    (by
      rw [lab03_totalNodes_cons, lab03_totalNodes_nil,
        List.length_replicate]
      decide)
  exact h

/-! ## Orchestrator: discard-in-full, fault isolation, dataset shape
(C3, C8, C9) -/

theorem lab03_mainLoop_done
    (fetch : String → Except String (List Lab03.PREntry))
    (l : List String) (st : Lab03.OrchestratorState)
    (h : Lab03.TARGET_REPOS_COUNT ≤ st.repos_completed) :
    Lab03.mainLoop fetch l st = st := by
  cases l with
  | nil => rfl
  | cons a l => simp only [Lab03.mainLoop]; rw [if_pos h]

/-- C3: a repository whose inner PR loop yields fewer than
`TARGET_PRS_PER_REPO` qualifying PRs is discarded in full by the
orchestrator: processing it adds none of its collected PRs to the
dataset, does not bump the completed-repository count, and the run
continues over the remaining repositories exactly as if that repository
had contributed nothing. -/
theorem under_target_repo_discarded
    (fetch : String → Except String (List Lab03.PREntry))
    (repo_name : String) (rest : List String)
    (st : Lab03.OrchestratorState) (prs : List Lab03.PREntry)
    (hf : fetch repo_name = .ok prs)
    (hlt : prs.length < Lab03.TARGET_PRS_PER_REPO) :
    Lab03.mainLoop fetch (repo_name :: rest) st
      = Lab03.mainLoop fetch rest st := by
  by_cases hdone : Lab03.TARGET_REPOS_COUNT ≤ st.repos_completed
  · rw [lab03_mainLoop_done fetch _ st hdone,
      lab03_mainLoop_done fetch rest st hdone]
  · simp only [Lab03.mainLoop, hf]
    rw [if_neg hdone]
    by_cases he : prs.isEmpty
    · rw [if_pos he]
    · rw [if_neg he, if_neg (by omega)]

/-- Witness for C3 at a concrete under-target repository (its fetch
returns 1 row, below the target of 100). -/
theorem under_target_repo_discarded_witness :
    Lab03.mainLoop
        (fun _ => Except.ok
          [⟨"o/r", 1, "t", "MERGED", 1, 0, 3600, 3600, none, none, none,
            none, none, none, none⟩])
        ["o/r", "o/s"] ⟨[], 0⟩
      = Lab03.mainLoop
          (fun _ => Except.ok
            [⟨"o/r", 1, "t", "MERGED", 1, 0, 3600, 3600, none, none, none,
              none, none, none, none⟩])
          ["o/s"] ⟨[], 0⟩ :=
  under_target_repo_discarded _ "o/r" ["o/s"] ⟨[], 0⟩ _ rfl (by decide)

/-- C8: an exception escaping one repository's inner PR loop is caught
by the orchestrator: that repository contributes zero rows and zero to
the completed count, and the loop continues over the remaining
repositories — processing the list with the failing repository at its
head equals processing the remaining list, so the run never aborts. -/
theorem failing_repo_contributes_zero
    (fetch : String → Except String (List Lab03.PREntry))
    (repo_name : String) (rest : List String)
    (st : Lab03.OrchestratorState) (e : String)
    (hf : fetch repo_name = .error e) :
    Lab03.mainLoop fetch (repo_name :: rest) st
      = Lab03.mainLoop fetch rest st := by
  by_cases hdone : Lab03.TARGET_REPOS_COUNT ≤ st.repos_completed
  · rw [lab03_mainLoop_done fetch _ st hdone,
      lab03_mainLoop_done fetch rest st hdone]
  · simp only [Lab03.mainLoop, hf]
    rw [if_neg hdone]

/-- Witness for C8 at a concrete always-raising fetch. -/
theorem failing_repo_contributes_zero_witness :
    Lab03.mainLoop (fun _ => Except.error "boom") ["o/r", "o/s"] ⟨[], 0⟩
      = Lab03.mainLoop (fun _ => Except.error "boom") ["o/s"] ⟨[], 0⟩ :=
  failing_repo_contributes_zero _ "o/r" ["o/s"] ⟨[], 0⟩ "boom" rfl

/-- C9: the orchestrator's dataset length is always exactly
`TARGET_PRS_PER_REPO` times the completed-repository count: each
completed repository appends exactly the first `TARGET_PRS_PER_REPO`
of its rows and every other repository appends none, so the invariant
is preserved from any state that satisfies it — in particular from the
initial empty state, and hence at every intermediate state of the
run. -/
theorem dataset_is_target_times_completed
    (fetch : String → Except String (List Lab03.PREntry))
    (repos : List String) :
    ∀ st : Lab03.OrchestratorState,
    st.all_prs_data.length
      = Lab03.TARGET_PRS_PER_REPO * st.repos_completed →
    (Lab03.mainLoop fetch repos st).all_prs_data.length
      = Lab03.TARGET_PRS_PER_REPO
        * (Lab03.mainLoop fetch repos st).repos_completed := by
  induction repos with
  | nil => intro st h; exact h
  | cons a l ih =>
    intro st h
    simp only [Lab03.mainLoop]
    split_ifs with hdone
    · exact h
    · cases hf : fetch a with
      | error e => exact ih st h
      | ok prs =>
        dsimp only
        by_cases he : prs.isEmpty
        · rw [if_pos he]; exact ih st h
        · rw [if_neg he]
          by_cases hge : prs.length ≥ Lab03.TARGET_PRS_PER_REPO
          · rw [if_pos hge]
            apply ih
            simp only [List.length_append, List.length_take, h,
              Nat.mul_succ]
            rw [Nat.min_eq_left hge]
          · rw [if_neg hge]; exact ih st h

/-- Witness for C9: one repository returning exactly 100 rows, run from
the empty initial state. -/
theorem dataset_is_target_times_completed_witness :
    (Lab03.mainLoop
        (fun _ => Except.ok (List.replicate 100
          ⟨"o/r", 1, "t", "MERGED", 1, 0, 3600, 3600, none, none, none,
            none, none, none, none⟩))
        ["o/r"] ⟨[], 0⟩).all_prs_data.length
      = Lab03.TARGET_PRS_PER_REPO
        * (Lab03.mainLoop
            (fun _ => Except.ok (List.replicate 100
              ⟨"o/r", 1, "t", "MERGED", 1, 0, 3600, 3600, none, none,
                none, none, none, none, none⟩))
            ["o/r"] ⟨[], 0⟩).repos_completed :=
  dataset_is_target_times_completed _ ["o/r"] ⟨[], 0⟩ (by decide)

/-! ## Behaviour on a mid-run fetch failure (C5) -/

/-- Counterexample to C5 as stated: in lab-01's `fetch_repo_list` (one
of the two loops the claim covers), a failed second page request makes
the whole function return `None` — the repository accumulated from the
successful first page is dropped, not returned.  At this concrete
input the function returns `(none, 2)`, which is not the accumulated
partial collection. -/
theorem fetch_failure_drops_partial_list_lab01 :
    Lab01.fetch_repo_list
        [some ⟨[some ⟨"octocat/hello-world", 1000⟩], ⟨some "c1", true⟩⟩,
         none]
      = (none, 2) ∧
    (Lab01.fetch_repo_list
        [some ⟨[some ⟨"octocat/hello-world", 1000⟩], ⟨some "c1", true⟩⟩,
         none]).1
      ≠ some [some ⟨"octocat/hello-world", 1000⟩] := by
  constructor
  · rfl
  · decide

/-- C5 as amended: the partial-success policy holds for the lab-03
outer loop — at the point a page request fails, the loop returns
exactly the names accumulated so far — while lab-01's `fetch_repo_list`
instead returns `None` on a failed request, discarding the pages
already accumulated. -/
theorem fetch_failure_outer_loop_policies :
    (∀ (qualified : List String) (pl : Nat)
        (rest : List (Option Lab03.RepoPage)) (req : Nat),
      Lab03.fetchReposLoop qualified (pl + 1) (none :: rest) req
        = ⟨qualified, req + 1⟩) ∧
    (∀ (acc : List (Option Lab01.RepoBasic)) (pl : Nat)
        (rest : List (Option Lab01.RepoListPage)) (req : Nat),
      Lab01.fetch_repo_list_loop acc (pl + 1) (none :: rest) req
        = (none, req + 1)) :=
  ⟨fun _ _ _ _ => rfl, fun _ _ _ _ => rfl⟩

/-! ## Clone directory released on every exit path (C6) -/

theorem lab04_finallyCleanup_clone (o : Bool) (r : Lab04.AnalyzeResult)
    (fs : Lab04.FsState) :
    (Lab04.finallyCleanup true o r fs).cloneDirExists = false := by
  simp only [Lab04.finallyCleanup]
  by_cases hc : fs.cloneDirExists <;> simp [hc] <;> split_ifs <;> simp [hc]

/-- C6: the temporary clone is a scoped resource in
`analyze_repository`.  First, a candidate rejected at the bug-count
stage (stage 1) causes zero filesystem side effects: `TEMP_DIR` is
never created, no clone is attempted, and no clone or CK-output
artifact exists when the call returns.  Second, on every exit path —
rejection at the Java-file-count or LOC stage, a failed clone, an
injected exception after cloning, or normal completion — the clone
directory does not exist when the call returns. -/
theorem clone_dir_released_on_every_exit :
    (∀ (repo_name : String) (env : Lab04.AnalyzeEnv)
        (fail : Lab04.FailPoint),
      env.total_bugs ≤ Lab04.MIN_BUGS →
      (Lab04.analyze_repository repo_name env fail).2
        = ⟨false, false, false, false⟩) ∧
    (∀ (repo_name : String) (env : Lab04.AnalyzeEnv)
        (fail : Lab04.FailPoint),
      (Lab04.analyze_repository repo_name env fail).2.cloneDirExists
        = false) := by
  constructor
  · intro repo_name env fail hb
    simp [Lab04.analyze_repository, Lab04.finallyCleanup, hb]
  · intro repo_name env fail
    by_cases hb : env.total_bugs ≤ Lab04.MIN_BUGS
    · simp [Lab04.analyze_repository, Lab04.finallyCleanup, hb]
    · cases fail <;>
        simp only [Lab04.analyze_repository, if_neg hb] <;>
        split_ifs <;>
        simp [lab04_finallyCleanup_clone]

/-- Witness for C6 at a concrete stage-1 rejection (the remote issue
search reports a negative `total_count`, at or below `MIN_BUGS = -1`):
the call returns with an untouched filesystem. -/
theorem clone_dir_released_on_every_exit_witness :
    (Lab04.analyze_repository "a/b" ⟨-2, true, 10, 3000, true⟩
        Lab04.FailPoint.noFail).2
      = ⟨false, false, false, false⟩ :=
  clone_dir_released_on_every_exit.1 "a/b" ⟨-2, true, 10, 3000, true⟩
    Lab04.FailPoint.noFail (by decide)

/-! ## Inner loop inclusion is exactly the conjunctive predicate (C7) -/

theorem rootmain_processPRNodes_spec (repo_name : String)
    (nodes : List (Option RootMain.PRNode)) :
    ∀ acc : List RootMain.PREntry,
    RootMain.processPRNodes repo_name acc nodes
      = acc ++ RootMain.spec_qualified_rows repo_name nodes := by
  induction nodes with
  | nil =>
    intro acc
    simp [RootMain.processPRNodes, RootMain.spec_qualified_rows]
  | cons o rest ih =>
    intro acc
    cases o with
    | none =>
      simp only [RootMain.processPRNodes, RootMain.spec_qualified_rows,
        List.filterMap_cons]
      exact ih acc
    | some pr =>
      by_cases hrev : pr.reviews < RootMain.MIN_REVIEW_COUNT
      · have hq : RootMain.spec_pr_qualifies pr = false := by
          simp [RootMain.spec_pr_qualifies, Nat.not_le.mpr hrev]
        simp only [RootMain.processPRNodes, if_pos hrev,
          RootMain.spec_qualified_rows, List.filterMap_cons]
        rcases hc : pr.createdAt with _ | c
        · simpa [hc] using ih acc
        · rcases hf : pr.mergedAt.or pr.closedAt with _ | f
          · simpa [hc, hf] using ih acc
          · simpa [hc, hf, hq] using ih acc
      · simp only [RootMain.processPRNodes, if_neg hrev,
          RootMain.spec_qualified_rows, List.filterMap_cons]
        rcases hc : pr.createdAt with _ | c
        · simpa [hc] using ih acc
        · rcases hf : pr.mergedAt.or pr.closedAt with _ | f
          · simpa [hc, hf] using ih acc
          · by_cases hdur : f - c ≥ 3600 * (RootMain.MIN_DURATION_HOURS : Int)
            · have hq : RootMain.spec_pr_qualifies pr = true := by
                simp [RootMain.spec_pr_qualifies, hc, hf,
                  Nat.le_of_not_lt hrev, hdur]
              simp only [hc, hf, if_pos hdur, hq, if_true]
              rw [ih]
              simp [RootMain.spec_qualified_rows]
            · have hq : RootMain.spec_pr_qualifies pr = false := by
                simp [RootMain.spec_pr_qualifies, hc, hf, hdur]
              simpa [hc, hf, if_neg hdur, hq] using ih acc

theorem rootmain_fetchPRsLoop_spec (repo_name : String)
    (responses : List (Option RootMain.PRPage)) :
    ∀ acc : List RootMain.PREntry,
    RootMain.fetchPRsLoop repo_name acc responses
      = acc ++ RootMain.spec_qualified_rows repo_name
          (RootMain.joinNodes (RootMain.consumedPages responses)) := by
  induction responses with
  | nil =>
    intro acc
    simp [RootMain.fetchPRsLoop, RootMain.consumedPages,
      RootMain.joinNodes, RootMain.spec_qualified_rows]
  | cons o rest ih =>
    intro acc
    cases o with
    | none =>
      simp [RootMain.fetchPRsLoop, RootMain.consumedPages,
        RootMain.joinNodes, RootMain.spec_qualified_rows]
    | some page =>
      simp only [RootMain.fetchPRsLoop, RootMain.consumedPages]
      by_cases hnext : page.pageInfo.hasNextPage
      · rw [if_pos hnext, ih, rootmain_processPRNodes_spec]
        simp only [hnext, if_true, RootMain.joinNodes, List.map_cons,
          List.flatten_cons, RootMain.spec_qualified_rows,
          List.filterMap_append, List.append_assoc]
      · rw [if_neg hnext, rootmain_processPRNodes_spec]
        simp [hnext, RootMain.joinNodes, RootMain.spec_qualified_rows]

theorem lab03_processPRNodes_spec (repo_name : String)
    (nodes : List (Option Lab03.PRNode)) :
    ∀ acc : List Lab03.PREntry,
    acc.length < Lab03.TARGET_PRS_PER_REPO →
    Lab03.processPRNodes repo_name acc nodes
      = (acc ++ Lab03.spec_qualified_rows repo_name nodes).take
          Lab03.TARGET_PRS_PER_REPO := by
  induction nodes with
  | nil =>
    intro acc h
    simp only [Lab03.processPRNodes, Lab03.spec_qualified_rows,
      List.filterMap_nil, List.append_nil]
    exact (List.take_of_length_le h.le).symm
  | cons o rest ih =>
    intro acc h
    cases o with
    | none =>
      simp only [Lab03.processPRNodes, Lab03.spec_qualified_rows,
        List.filterMap_cons]
      exact ih acc h
    | some pr =>
      by_cases hrev : pr.reviews < Lab03.MIN_REVIEW_COUNT
      · have hq : Lab03.spec_pr_qualifies pr = false := by
          simp [Lab03.spec_pr_qualifies, Nat.not_le.mpr hrev]
        simp only [Lab03.processPRNodes, if_pos hrev,
          Lab03.spec_qualified_rows, List.filterMap_cons]
        rcases hc : pr.createdAt with _ | c
        · simpa [hc] using ih acc h
        · rcases hf : pr.mergedAt.or pr.closedAt with _ | f
          · simpa [hc, hf] using ih acc h
          · simpa [hc, hf, hq] using ih acc h
      · simp only [Lab03.processPRNodes, if_neg hrev,
          Lab03.spec_qualified_rows, List.filterMap_cons]
        rcases hc : pr.createdAt with _ | c
        · simpa [hc] using ih acc h
        · rcases hf : pr.mergedAt.or pr.closedAt with _ | f
          · simpa [hc, hf] using ih acc h
          · by_cases hdur :
                f - c ≥ 3600 * (Lab03.MIN_DURATION_HOURS : Int)
            · have hq : Lab03.spec_pr_qualifies pr = true := by
                simp [Lab03.spec_pr_qualifies, hc, hf,
                  Nat.le_of_not_lt hrev, hdur]
              simp only [hc, hf, if_pos hdur, hq, if_true]
              by_cases hfull :
                  (acc ++ [Lab03.mkPREntry repo_name pr c f]).length
                    ≥ Lab03.TARGET_PRS_PER_REPO
              · rw [if_pos hfull]
                have hlen :
                    (acc ++ [Lab03.mkPREntry repo_name pr c f]).length
                      = Lab03.TARGET_PRS_PER_REPO := by
                  simp only [List.length_append, List.length_singleton]
                    at hfull ⊢
                  omega
                conv_rhs => rw [List.append_cons]
                rw [List.take_append_of_le_length hlen.ge,
                  List.take_of_length_le hlen.le]
              · rw [if_neg hfull]
                rw [ih _ (by omega)]
                conv_rhs => rw [List.append_cons]
                rfl
            · have hq : Lab03.spec_pr_qualifies pr = false := by
                simp [Lab03.spec_pr_qualifies, hc, hf, hdur]
              simpa [hc, hf, if_neg hdur, hq] using ih acc h

theorem lab03_rows_append (r : String) (x y : List (Option Lab03.PRNode)) :
    Lab03.spec_qualified_rows r (x ++ y)
      = Lab03.spec_qualified_rows r x ++ Lab03.spec_qualified_rows r y := by
  simp [Lab03.spec_qualified_rows]

theorem lab03_joinNodes_cons (p : Lab03.PRPage) (l : List Lab03.PRPage) :
    Lab03.joinNodes (p :: l) = p.nodes ++ Lab03.joinNodes l := by
  simp [Lab03.joinNodes]

theorem lab03_fetchPRsLoop_spec (repo_name : String)
    (responses : List (Option Lab03.PRPage)) :
    ∀ acc : List Lab03.PREntry,
    acc.length < Lab03.TARGET_PRS_PER_REPO →
    Lab03.fetchPRsLoop repo_name acc responses
      = (acc ++ Lab03.spec_qualified_rows repo_name
          (Lab03.joinNodes (Lab03.consumedPages responses))).take
            Lab03.TARGET_PRS_PER_REPO := by
  induction responses with
  | nil =>
    intro acc h
    simp only [Lab03.fetchPRsLoop, Lab03.consumedPages, Lab03.joinNodes,
      List.map_nil, List.flatten_nil, Lab03.spec_qualified_rows,
      List.filterMap_nil, List.append_nil]
    exact (List.take_of_length_le h.le).symm
  | cons o rest ih =>
    intro acc h
    cases o with
    | none =>
      simp only [Lab03.fetchPRsLoop, Lab03.consumedPages, Lab03.joinNodes,
        List.map_nil, List.flatten_nil, Lab03.spec_qualified_rows,
        List.filterMap_nil, List.append_nil]
      exact (List.take_of_length_le h.le).symm
    | some page =>
      simp only [Lab03.fetchPRsLoop, Lab03.consumedPages]
      have hv := lab03_processPRNodes_spec repo_name page.nodes acc h
      by_cases hfull :
          (Lab03.processPRNodes repo_name acc page.nodes).length
            ≥ Lab03.TARGET_PRS_PER_REPO
      · rw [if_pos hfull]
        rw [hv, List.length_take] at hfull
        have hTL : Lab03.TARGET_PRS_PER_REPO
            ≤ (acc ++ Lab03.spec_qualified_rows repo_name
                page.nodes).length := by omega
        rw [hv, lab03_joinNodes_cons, lab03_rows_append,
          ← List.append_assoc, List.take_append_of_le_length hTL]
      · rw [if_neg hfull]
        rw [hv, List.length_take] at hfull
        have hlt : (acc ++ Lab03.spec_qualified_rows repo_name
            page.nodes).length < Lab03.TARGET_PRS_PER_REPO := by omega
        by_cases hnext : page.pageInfo.hasNextPage
        · rw [if_pos hnext, hv, List.take_of_length_le hlt.le,
            ih _ hlt, if_pos hnext, lab03_joinNodes_cons,
            lab03_rows_append, ← List.append_assoc]
        · rw [if_neg hnext, hv, List.take_of_length_le hlt.le,
            if_neg hnext, lab03_joinNodes_cons]
          simp only [Lab03.joinNodes, List.map_nil, List.flatten_nil,
            List.append_nil]
          exact (List.take_of_length_le hlt.le).symm

/-- C7: the inner PR loop includes a pull request in its output exactly
when the conjunctive predicate holds.  The root-level loop's output is
precisely the rows of the non-null PR nodes of the consumed pages that
satisfy the predicate, in page order; lab-03's loop returns the first
`TARGET_PRS_PER_REPO` of those same rows (its extra early stop at the
per-repository target truncates but never reorders or admits others).
The predicate itself holds iff the review count is at least
`MIN_REVIEW_COUNT` AND the creation time and the final event time
(merge time when present, else close time) are both present with an
elapsed duration of at least `MIN_DURATION_HOURS` hours — so a PR
failing either conjunct or missing the needed timestamps is
excluded. -/
theorem inner_loop_filters_by_conjunctive_predicate :
    (∀ (repo_name : String) (responses : List (Option RootMain.PRPage)),
      RootMain.fetch_valid_prs_for_repo repo_name responses
        = RootMain.spec_qualified_rows repo_name
            (RootMain.joinNodes (RootMain.consumedPages responses))) ∧
    (∀ (repo_name : String) (responses : List (Option Lab03.PRPage)),
      Lab03.fetch_valid_prs_for_repo repo_name responses
        = (Lab03.spec_qualified_rows repo_name
            (Lab03.joinNodes (Lab03.consumedPages responses))).take
              Lab03.TARGET_PRS_PER_REPO) ∧
    (∀ pr : Lab03.PRNode,
      Lab03.spec_pr_qualifies pr = true ↔
        (Lab03.MIN_REVIEW_COUNT ≤ pr.reviews ∧
         ∃ c f, pr.createdAt = some c ∧
           pr.mergedAt.or pr.closedAt = some f ∧
           3600 * (Lab03.MIN_DURATION_HOURS : Int) ≤ f - c)) := by
  refine ⟨?_, ?_, ?_⟩
  · intro r resp
    have h := rootmain_fetchPRsLoop_spec r resp []
    simpa using h
  · intro r resp
    have h := lab03_fetchPRsLoop_spec r resp [] (by decide)
    simpa using h
  · intro pr
    constructor
    · intro hq
      simp only [Lab03.spec_pr_qualifies, Bool.and_eq_true,
        decide_eq_true_eq] at hq
      refine ⟨hq.1, ?_⟩
      have h2 := hq.2
      rcases hc : pr.createdAt with _ | c
      · rw [hc] at h2
        simp at h2
      · rcases hf : pr.mergedAt.or pr.closedAt with _ | f
        · rw [hc, hf] at h2
          simp at h2
        · rw [hc, hf] at h2
          simp only [decide_eq_true_eq] at h2
          exact ⟨c, f, rfl, rfl, h2⟩
    · rintro ⟨h1, c, f, hc, hf, hd⟩
      simp [Lab03.spec_pr_qualifies, hc, hf, h1, hd]

/-! ## Pagination loops request at most a fixed number of pages (C10) -/

theorem lab01_fetch_repo_list_loop_pages (pl : Nat) :
    ∀ (responses : List (Option Lab01.RepoListPage))
      (acc : List (Option Lab01.RepoBasic)) (req : Nat),
    (Lab01.fetch_repo_list_loop acc pl responses req).2 ≤ req + pl := by
  induction pl with
  | zero =>
    intro responses acc req
    simp [Lab01.fetch_repo_list_loop]
  | succ pl ih =>
    intro responses acc req
    match responses with
    | [] =>
      simp only [Lab01.fetch_repo_list_loop]
      omega
    | none :: rest =>
      simp only [Lab01.fetch_repo_list_loop]
      omega
    | some page :: rest =>
      simp only [Lab01.fetch_repo_list_loop]
      split_ifs with hnext
      · exact le_trans (ih rest _ (req + 1)) (by omega)
      · simp only
        omega

theorem lab03_fetchReposLoop_pages (pl : Nat) :
    ∀ (responses : List (Option Lab03.RepoPage)) (acc : List String)
      (req : Nat),
    (Lab03.fetchReposLoop acc pl responses req).pagesRequested
      ≤ req + pl := by
  induction pl with
  | zero =>
    intro responses acc req
    simp [Lab03.fetchReposLoop]
  | succ pl ih =>
    intro responses acc req
    match responses with
    | [] =>
      simp only [Lab03.fetchReposLoop]
      omega
    | none :: rest =>
      simp only [Lab03.fetchReposLoop]
      omega
    | some page :: rest =>
      simp only [Lab03.fetchReposLoop]
      split_ifs with hfull hnext
      · simp only
        omega
      · exact le_trans (ih rest _ (req + 1)) (by omega)
      · simp only
        omega

theorem lab04_reposLoop_pages (fuel : Nat) :
    ∀ (responses : Nat → Lab04.SearchPage) (max_repos : Nat)
      (acc : List Lab04.JavaRepo) (page req : Nat),
    Lab04.MAX_PAGES + 1 - page ≤ fuel →
    req + 1 = page → page ≤ Lab04.MAX_PAGES + 1 →
    (Lab04.reposLoop responses max_repos acc page req).2
      ≤ Lab04.MAX_PAGES := by
  induction fuel with
  | zero =>
    intro responses maxr acc page req hfuel hreq hpage
    rw [Lab04.reposLoop]
    rw [dif_neg (by rintro ⟨-, h2⟩; omega)]
    omega
  | succ fuel ih =>
    intro responses maxr acc page req hfuel hreq hpage
    rw [Lab04.reposLoop]
    by_cases hco : acc.length < maxr ∧ page ≤ Lab04.MAX_PAGES
    · rw [dif_pos hco]
      dsimp only
      split_ifs with hempty hrate
      · omega
      · omega
      · exact ih responses maxr _ (page + 1) (req + 1)
          (by omega) (by omega) (by omega)
    · rw [dif_neg hco]
      omega

/-- C10: every repository-search pagination loop issues at most its
fixed page budget of requests, whatever the remote answers — at most
`PAGES_TO_FETCH = 10` pages in lab-01, `PAGES_TO_FETCH_REPOS = 10` in
lab-03, and `MAX_PAGES = 20` in lab-04 — so each loop terminates even
when every served page reports another page available and the target
count is never reached. -/
theorem pagination_requests_bounded :
    (∀ responses,
      (Lab01.fetch_repo_list responses).2 ≤ Lab01.PAGES_TO_FETCH) ∧
    (∀ responses,
      (Lab03.fetch_popular_repos_with_prs_filter
          responses).pagesRequested ≤ Lab03.PAGES_TO_FETCH_REPOS) ∧
    (∀ (responses : Nat → Lab04.SearchPage) (max_repos : Nat),
      (Lab04.get_top_java_repos_paginated responses max_repos).2
        ≤ Lab04.MAX_PAGES) := by
  refine ⟨?_, ?_, ?_⟩
  · intro responses
    have h := lab01_fetch_repo_list_loop_pages Lab01.PAGES_TO_FETCH
      responses [] 0
    simpa using h
  · intro responses
    have h := lab03_fetchReposLoop_pages Lab03.PAGES_TO_FETCH_REPOS
      responses [] 0
    simpa using h
  · intro responses max_repos
    exact lab04_reposLoop_pages Lab04.MAX_PAGES responses max_repos [] 1 0
      (by omega) rfl (by omega)
